import Mathlib

/-
Verification of the blockwise ("ring/BPT") attention, FFN and cross-entropy
reducers of llamabpt/bpt.py, shallowly embedded over the real numbers.

Embedding conventions:
* Tensors are total functions out of `Fin`-indexed shapes, in the same axis
  order as the source arrays.
* Floating point scalars are modelled as real numbers (`ℝ`); dtype casts
  (`astype`, `float32_logits`) are identities in this semantics and are
  dropped.  `jnp.finfo(dtype).min` is kept as an explicit real parameter
  `dtypeMin` of the functions that receive `dtype` in the source.
* The running maximum of the online-softmax accumulator starts at `-inf`
  (source: `(-jnp.inf) * jnp.ones(...)`), so it is modelled in `EReal`;
  `jnp.exp` on it is `expE`, which sends `⊥` (= `-inf`) to `0` exactly as
  IEEE `exp(-inf) = 0`.
* `jax.random.bernoulli(rng, p, shape)` is modelled by passing the drawn
  boolean sample itself (`dropoutSample`); randomness management is out of
  scope of the spec.
* `jax.lax.stop_gradient` and `jax.checkpoint` affect only gradients and
  recomputation, not forward values; they are identities here.
* Fallible code (the Python `bias.shape` attribute access on `None`, which
  raises `AttributeError`) is modelled with `Except String`.
-/

namespace BPT

/-- Rank-4 tensor of shape (batch, sequence, heads, head-dim), axis order as
in the source arrays. -/
abbrev T4 (B S H D : ℕ) : Type := Fin B → Fin S → Fin H → Fin D → ℝ

/-- Rank-3 tensor of shape (batch, sequence, model-dim). -/
abbrev T3 (B S Dm : ℕ) : Type := Fin B → Fin S → Fin Dm → ℝ

/-- Index of the flat sequence position holding element `i` of chunk `j`
under the einops pattern `(c n)` with `c` the chunk size (outer factor) and
`n` the number of chunks (inner factor): position `i * n + j`.  This is the
decomposition used by the source rearranges with pattern `(c n)`
(bpt.py lines 69, 70, 145). -/
def decompIdx (c n : ℕ) (i : Fin c) (j : Fin n) : Fin (c * n) :=
  ⟨i.val * n + j.val, by
    have hi := i.isLt
    have hj := j.isLt
    calc i.val * n + j.val < i.val * n + n := by omega
    _ = (i.val + 1) * n := by ring
    _ ≤ c * n := Nat.mul_le_mul_right n (by omega)⟩

/-- Outer index `p / c` of flat position `p` under the einops composition
`(n c)` with `n` outer and `c` inner, used by the output reassembly
(bpt.py line 140). -/
def chunkOfFlat (c n : ℕ) (p : Fin (c * n)) : Fin n :=
  ⟨p.val / c, by
    have hp := p.isLt
    have hc : 0 < c := by
      rcases Nat.eq_zero_or_pos c with h | h
      · subst h; simp at hp
      · exact h
    exact (Nat.div_lt_iff_lt_mul hc).mpr (lt_of_lt_of_eq hp (Nat.mul_comm c n))⟩

/-- Inner index `p % c` of flat position `p` under the einops composition
`(n c)` (bpt.py line 140). -/
def posOfFlat (c n : ℕ) (p : Fin (c * n)) : Fin c :=
  ⟨p.val % c, by
    have hp := p.isLt
    have hc : 0 < c := by
      rcases Nat.eq_zero_or_pos c with h | h
      · subst h; simp at hp
      · exact h
    exact Nat.mod_lt _ hc⟩

/-- Outer index `p / n` of flat position `p` under the einops composition
`(c n)` with `c` outer and `n` inner, used by the FFN reassembly
(bpt.py line 163). -/
def outerOfFlat (c n : ℕ) (p : Fin (c * n)) : Fin c :=
  ⟨p.val / n, by
    have hp := p.isLt
    have hn : 0 < n := by
      rcases Nat.eq_zero_or_pos n with h | h
      · subst h; simp at hp
      · exact h
    exact (Nat.div_lt_iff_lt_mul hn).mpr hp⟩

/-- Inner index `p % n` of flat position `p` under the einops composition
`(c n)` (bpt.py line 163). -/
def innerOfFlat (c n : ℕ) (p : Fin (c * n)) : Fin n :=
  ⟨p.val % n, by
    have hp := p.isLt
    have hn : 0 < n := by
      rcases Nat.eq_zero_or_pos n with h | h
      · subst h; simp at hp
      · exact h
    exact Nat.mod_lt _ hn⟩

noncomputable section

/-- Real exponential extended to `EReal` arguments: `exp(-inf) = 0` as in
IEEE arithmetic.  `⊤` never arises in this development (scores are finite
and the running maximum is the max of `⊥` with finite values). -/
def expE (x : EReal) : ℝ := if x = ⊥ then 0 else Real.exp x.toReal

/-- Source function `_chunk_attention_bias` (bpt.py lines 19-51): builds the
additive log-space bias tile of shape (batch, heads, qc, kc) for the block
pair `(query_chunk_idx, key_chunk_idx)`.

Modelling notes, relative to the source:
* `bias` is modelled at shape (1, 1, qlen, klen) (the broadcast-batch and
  broadcast-head axes are size 1), so the tile is a function of the two
  sequence axes only; `attn_dropout` has the full shape
  (batch, heads, qlen, klen) exactly as drawn at bpt.py line 78.
* `lax.dynamic_slice` clamps start indices so that the slice stays in
  bounds; for the block indices produced by `blockwise_attn` the slice is
  always in bounds and equals the direct sub-rectangle read modelled here
  (out-of-range reads, which never occur, are modelled as 0).
* The three contributions are accumulated additively in source order:
  sliced bias, then the causal mask term `(query_idx < key_idx) * finfo.min`,
  then the dropout term `mask * finfo.min`. -/
def chunk_attention_bias (B H qc kc qlen klen : ℕ)
    (bias : Option (Fin qlen → Fin klen → ℝ))
    (deterministic : Bool)
    (attn_dropout : Option (Fin B → Fin H → Fin qlen → Fin klen → Bool))
    (attn_pdrop : ℝ) (causal : Bool) (dtypeMin : ℝ)
    (query_chunk_idx key_chunk_idx : ℕ) :
    Fin B → Fin H → Fin qc → Fin kc → ℝ :=
  fun b h i j =>
    let query_offset := query_chunk_idx * qc
    let key_offset := key_chunk_idx * kc
    let biasPart : ℝ :=
      match bias with
      | none => 0
      | some bfun =>
          if hq : query_offset + i.val < qlen then
            if hk : key_offset + j.val < klen then
              bfun ⟨query_offset + i.val, hq⟩ ⟨key_offset + j.val, hk⟩
            else 0
          else 0
    let causalPart : ℝ :=
      if causal then
        if query_offset + i.val < key_offset + j.val then dtypeMin else 0
      else 0
    let dropoutPart : ℝ :=
      if deterministic = false ∧ 0 < attn_pdrop then
        match attn_dropout with
        | none => 0
        | some m =>
            if hq : query_offset + i.val < qlen then
              if hk : key_offset + j.val < klen then
                (if m b h ⟨query_offset + i.val, hq⟩ ⟨key_offset + j.val, hk⟩
                  then (1 : ℝ) else 0) * dtypeMin
              else 0
            else 0
      else 0
    biasPart + causalPart + dropoutPart

/-- Source `Carry` NamedTuple (bpt.py lines 54-57), specialised to one query
block: numerator of shape (batch, qc, heads, head-dim), denominator of the
shape it is actually allocated with at bpt.py line 127, namely
(batch, qc, heads, head-dim), and running maximum of shape
(batch, qc, heads, 1) with the trailing broadcast axis of size 1 dropped. -/
structure Carry (B c H D : ℕ) where
  numerator : Fin B → Fin c → Fin H → Fin D → ℝ
  denominator : Fin B → Fin c → Fin H → Fin D → ℝ
  max_so_far : Fin B → Fin c → Fin H → EReal

/-- Source function `summarize_chunk` (bpt.py lines 92-110): folds one
key/value block into the online-softmax carry of one query block.
`jnp.einsum` contractions are finite sums, `jnp.max(..., axis=-1)` is the
supremum over the key axis (taken in `EReal`, where the empty case is `⊥`),
`jax.lax.stop_gradient` is the identity on forward values. -/
def summarize_chunk (B H D c kcs qlen klen : ℕ)
    (bias : Option (Fin qlen → Fin klen → ℝ))
    (deterministic : Bool)
    (attn_dropout : Option (Fin B → Fin H → Fin qlen → Fin klen → Bool))
    (attn_pdrop : ℝ) (causal : Bool) (dtypeMin : ℝ)
    (query_chunk : Fin B → Fin c → Fin H → Fin D → ℝ) (query_chunk_idx : ℕ)
    (carry : Carry B c H D)
    (key_chunk value_chunk : Fin B → Fin kcs → Fin H → Fin D → ℝ)
    (key_chunk_idx : ℕ) : Carry B c H D :=
  let attn_weights : Fin B → Fin c → Fin H → Fin kcs → ℝ :=
    fun b q h k => ∑ d, query_chunk b q h d * key_chunk b k h d
  let bias_chunk := chunk_attention_bias B H c kcs qlen klen bias
    deterministic attn_dropout attn_pdrop causal dtypeMin
    query_chunk_idx key_chunk_idx
  -- jnp.moveaxis(bias_chunk, 1, 2) followed by the broadcast addition
  let attn_weights2 : Fin B → Fin c → Fin H → Fin kcs → ℝ :=
    fun b q h k => attn_weights b q h k + bias_chunk b h q k
  let row_max : Fin B → Fin c → Fin H → EReal :=
    fun b q h => Finset.univ.sup fun k => ((attn_weights2 b q h k : ℝ) : EReal)
  let max_score : Fin B → Fin c → Fin H → EReal :=
    fun b q h => max (carry.max_so_far b q h) (row_max b q h)
  let exp_weights : Fin B → Fin c → Fin H → Fin kcs → ℝ :=
    fun b q h k => expE (((attn_weights2 b q h k : ℝ) : EReal) - max_score b q h)
  let exp_values : Fin B → Fin c → Fin H → Fin D → ℝ :=
    fun b q h f => ∑ v, exp_weights b q h v * value_chunk b v h f
  let correction : Fin B → Fin c → Fin H → ℝ :=
    fun b q h => expE (carry.max_so_far b q h - max_score b q h)
  { numerator := fun b q h d =>
      carry.numerator b q h d * correction b q h + exp_values b q h d
    denominator := fun b q h d =>
      carry.denominator b q h d * correction b q h + ∑ k, exp_weights b q h k
    max_so_far := max_score }

/-- Source function `skip_upper_half` (bpt.py lines 112-123): under causal
attention a block pair with `query_chunk_idx < key_chunk_idx` passes the
carry through unchanged, every other pair is folded by `summarize_chunk`. -/
def skip_upper_half (B H D c kcs qlen klen : ℕ)
    (bias : Option (Fin qlen → Fin klen → ℝ))
    (deterministic : Bool)
    (attn_dropout : Option (Fin B → Fin H → Fin qlen → Fin klen → Bool))
    (attn_pdrop : ℝ) (causal : Bool) (dtypeMin : ℝ)
    (query_chunk : Fin B → Fin c → Fin H → Fin D → ℝ) (query_chunk_idx : ℕ)
    (carry : Carry B c H D)
    (key_chunk value_chunk : Fin B → Fin kcs → Fin H → Fin D → ℝ)
    (key_chunk_idx : ℕ) : Carry B c H D :=
  let skip_block : Bool :=
    if causal then decide (query_chunk_idx < key_chunk_idx) else false
  if skip_block then carry
  else summarize_chunk B H D c kcs qlen klen bias deterministic attn_dropout
    attn_pdrop causal dtypeMin query_chunk query_chunk_idx carry
    key_chunk value_chunk key_chunk_idx

/-- Initial carry of one query block (bpt.py lines 125-129): zero numerator,
zero denominator, running maximum `-inf`. -/
def init_carry (B c H D : ℕ) : Carry B c H D :=
  { numerator := fun _ _ _ _ => 0
    denominator := fun _ _ _ _ => 0
    max_so_far := fun _ _ _ => ⊥ }

/-- Shapes of the three arrays allocated by `init_carry` in the source
(bpt.py lines 126-128), transcribed literally from the `jnp.zeros` /
`jnp.ones` shape tuples: numerator
(batch, query_chunk_size, num_heads, dim_per_head), denominator
(batch, query_chunk_size, num_heads, dim_per_head), max
(batch, query_chunk_size, num_heads, 1). -/
def init_carry_shapes (batch query_chunk_size num_heads dim_per_head : ℕ) :
    List ℕ × List ℕ × List ℕ :=
  ([batch, query_chunk_size, num_heads, dim_per_head],
   [batch, query_chunk_size, num_heads, dim_per_head],
   [batch, query_chunk_size, num_heads, 1])

/-- Source function `_query_chunk_attention` (bpt.py lines 87-134): the
`lax.scan` of `skip_upper_half` over the key/value chunks (in ascending
chunk order, threading the carry) started from `init_carry`, followed by
the final division numerator / denominator. -/
def query_chunk_attention (B H D c kcs m qlen klen : ℕ)
    (bias : Option (Fin qlen → Fin klen → ℝ))
    (deterministic : Bool)
    (attn_dropout : Option (Fin B → Fin H → Fin qlen → Fin klen → Bool))
    (attn_pdrop : ℝ) (causal : Bool) (dtypeMin : ℝ)
    (keyC valueC : Fin m → Fin B → Fin kcs → Fin H → Fin D → ℝ)
    (query_chunk : Fin B → Fin c → Fin H → Fin D → ℝ)
    (query_chunk_idx : ℕ) : Fin B → Fin c → Fin H → Fin D → ℝ :=
  let final : Carry B c H D :=
    Fin.foldl m
      (fun carry j =>
        skip_upper_half B H D c kcs qlen klen bias deterministic attn_dropout
          attn_pdrop causal dtypeMin query_chunk query_chunk_idx carry
          (keyC j) (valueC j) j.val)
      (init_carry B c H D)
  fun b q h d => final.numerator b q h d / final.denominator b q h d

/-- Source function `blockwise_attn` (bpt.py lines 60-141).

* `c`/`n` are the query chunk size and number of query chunks, `kcs`/`m`
  the key chunk size and number of key/value chunks, so the query sequence
  length is `c * n` and the key/value sequence length `kcs * m` (divisor
  chunk sizes are thereby structural).
* The query is pre-scaled by `1 / sqrt(head_dim)` (line 63).
* Line 69/70 rearrange with pattern `b (c n) h d -> n b c h d`
  (`c` bound to the chunk size, hence the *outer* factor): chunk `j` holds
  the flat positions `i * n + j` — this is `decompIdx`.
* Line 74 runs `zip(bias.shape, ...)`; when `bias` is `None` this attribute
  access raises `AttributeError`, modelled as `Except.error`.  The modelled
  bias shape (1, 1, qlen, klen) always passes the broadcast assertion.
* Lines 76-80: the dropout mask is drawn iff `not deterministic` and
  `attn_pdrop > 0`; the drawn sample is the parameter `dropoutSample`.
* Line 140 rearranges the stacked per-chunk outputs back with pattern
  `n b c h d -> b (n c) h d` (`n` the *outer* factor): output position `p`
  reads chunk `p / c`, element `p % c` — `chunkOfFlat` / `posOfFlat`.
* `dtype`, `precision`, `policy` and `float32_logits` only affect precision,
  recomputation or castings and are dropped; `dtypeMin` stands for
  `jnp.finfo(dtype).min`. -/
def blockwise_attn (B H D c n kcs m : ℕ)
    (query : T4 B (c * n) H D) (key value : T4 B (kcs * m) H D)
    (bias : Option (Fin (c * n) → Fin (kcs * m) → ℝ))
    (deterministic : Bool)
    (dropoutSample : Fin B → Fin H → Fin (c * n) → Fin (kcs * m) → Bool)
    (attn_pdrop : ℝ) (causal : Bool) (dtypeMin : ℝ) :
    Except String (T4 B (c * n) H D) :=
  let query1 : T4 B (c * n) H D := fun b s h d => query b s h d / Real.sqrt D
  let queryC : Fin n → Fin B → Fin c → Fin H → Fin D → ℝ :=
    fun j b i h d => query1 b (decompIdx c n i j) h d
  let keyC : Fin m → Fin B → Fin kcs → Fin H → Fin D → ℝ :=
    fun j b i h d => key b (decompIdx kcs m i j) h d
  let valueC : Fin m → Fin B → Fin kcs → Fin H → Fin D → ℝ :=
    fun j b i h d => value b (decompIdx kcs m i j) h d
  match bias with
  | none => Except.error "AttributeError: NoneType object has no attribute shape"
  | some bfun =>
      let attn_dropout :
          Option (Fin B → Fin H → Fin (c * n) → Fin (kcs * m) → Bool) :=
        if deterministic = false ∧ 0 < attn_pdrop then some dropoutSample
        else none
      let res : Fin n → Fin B → Fin c → Fin H → Fin D → ℝ :=
        fun j => query_chunk_attention B H D c kcs m (c * n) (kcs * m)
          (some bfun) deterministic attn_dropout attn_pdrop causal dtypeMin
          keyC valueC (queryC j) j.val
      Except.ok (fun b p h d => res (chunkOfFlat c n p) b (posOfFlat c n p) h d)

/-- Modelled from the spec: the "direct, unchunked softmax-attention
reference" of spec §8.1 — scores `Q·Kᵀ / sqrt(head_dim) + bias`, causal
positions (key strictly after query) excluded from the softmax, output the
softmax-weighted sum of the values.  (In exact real arithmetic the usual
max-subtraction stabilisation cancels, so it is omitted.) -/
def reference_attn (B H D S T : ℕ) (query : T4 B S H D) (key value : T4 B T H D)
    (bias : Fin S → Fin T → ℝ) (causal : Bool) : T4 B S H D :=
  let score : Fin B → Fin S → Fin H → Fin T → ℝ :=
    fun b s h t => (∑ d, (query b s h d / Real.sqrt D) * key b t h d) + bias s t
  let w : Fin B → Fin S → Fin H → Fin T → ℝ :=
    fun b s h t =>
      if causal ∧ s.val < t.val then 0 else Real.exp (score b s h t)
  fun b s h d => (∑ t, w b s h t * value b t h d) / (∑ t, w b s h t)

/-- Modelled from the spec: the online-softmax accumulator update of spec
§4.3 steps c-h, as a function of the score tile of one (query block,
key block) pair:
new_max = max(running-max, row-wise max of scores over the key axis);
exp_weights = exp(scores - new_max); correction = exp(running-max - new_max);
numerator := numerator * correction + exp_weights contracted with the value
block over the key axis; denominator := denominator * correction +
row-sum(exp_weights); running-max := new_max. -/
def spec_accumulator_update (B H D c kcs : ℕ) (carry : Carry B c H D)
    (scores : Fin B → Fin c → Fin H → Fin kcs → ℝ)
    (value_chunk : Fin B → Fin kcs → Fin H → Fin D → ℝ) : Carry B c H D :=
  let new_max : Fin B → Fin c → Fin H → EReal :=
    fun b q h => max (carry.max_so_far b q h)
      (Finset.univ.sup fun k => ((scores b q h k : ℝ) : EReal))
  let exp_weights : Fin B → Fin c → Fin H → Fin kcs → ℝ :=
    fun b q h k => expE (((scores b q h k : ℝ) : EReal) - new_max b q h)
  let correction : Fin B → Fin c → Fin H → ℝ :=
    fun b q h => expE (carry.max_so_far b q h - new_max b q h)
  { numerator := fun b q h d =>
      carry.numerator b q h d * correction b q h
        + ∑ k, exp_weights b q h k * value_chunk b k h d
    denominator := fun b q h d =>
      carry.denominator b q h d * correction b q h + ∑ k, exp_weights b q h k
    max_so_far := new_max }

/-- Source function `blockwise_ffn` (bpt.py lines 144-164): rearrange
`b (c n) d -> b c n d` (chunk index `n` the inner factor, so block `j`
holds flat positions `i * n + j`), apply the per-position cell to every
block via `nn.scan` over the `n` axis (the carry is returned unchanged, so
the scan is a map), rearrange back with the same pattern `b c n d ->
b (c n) d`.  The cell (`cell.forward_ffn`) is the claim's deterministic
stateless per-position transform `cellForward` on feature vectors;
`remat`/`policy` affect only recomputation and are dropped. -/
def blockwise_ffn (B c n Dm : ℕ)
    (cellForward : (Fin Dm → ℝ) → (Fin Dm → ℝ))
    (inputs : T3 B (c * n) Dm) : T3 B (c * n) Dm :=
  let blocks : Fin B → Fin c → Fin n → Fin Dm → ℝ :=
    fun b i j d => inputs b (decompIdx c n i j) d
  let res : Fin B → Fin c → Fin n → Fin Dm → ℝ :=
    fun b i j => cellForward (fun d => blocks b i j d)
  fun b s d => res b (outerOfFlat c n s) (innerOfFlat c n s) d

/-- Source `jax.nn.log_softmax` over the vocabulary axis:
`x_v - log (Σ_w exp x_w)` (the internal max-shift cancels in exact real
arithmetic). -/
def log_softmax (V : ℕ) (logits : Fin V → ℝ) : Fin V → ℝ :=
  fun v => logits v - Real.log (∑ w, Real.exp (logits w))

/-- Source `jnp.argmax` over the vocabulary axis: the first (least) index
attaining the maximum. -/
def argmaxIdx (V : ℕ) [NeZero V] (f : Fin V → ℝ) : Fin V :=
  (Finset.univ.filter fun i => ∀ j, f j ≤ f i).min' (by
    obtain ⟨x, -, hx⟩ := Finset.exists_max_image Finset.univ f
      ⟨⟨0, Nat.pos_of_ne_zero (NeZero.ne V)⟩, Finset.mem_univ _⟩
    exact ⟨x, Finset.mem_filter.mpr ⟨Finset.mem_univ _, fun j => hx j (Finset.mem_univ _)⟩⟩)

/-- Source function `loss_acc` (bpt.py lines 175-192) on one block: the
valid-count floored at 1e-10, the validity-masked target log-probabilities
and the validity-masked top-1-correct indicators. -/
def loss_acc (V c : ℕ) [NeZero V] (logits : Fin c → Fin V → ℝ)
    (tokens : Fin c → Fin V) (valid : Fin c → ℝ) :
    (Fin c → ℝ) × (Fin c → Bool) × ℝ :=
  let valid_text_length : ℝ := max (∑ i, valid i) (1 / 10 ^ 10)
  let token_log_prob : Fin c → ℝ :=
    fun i => if 0 < valid i then log_softmax V (logits i) (tokens i) else 0
  let correct : Fin c → Bool :=
    fun i => if 0 < valid i then decide (argmaxIdx V (logits i) = tokens i)
      else false
  (token_log_prob, correct, valid_text_length)

/-- Source function `_loss_and_accuracy` (bpt.py lines 195-203): folds one
block into the running (loss-sum, accuracy-sum, block-count) triple. -/
def loss_and_accuracy (V c : ℕ) [NeZero V] (carry : ℝ × ℝ × ℕ)
    (logits : Fin c → Fin V → ℝ) (tokens : Fin c → Fin V)
    (valid : Fin c → ℝ) : ℝ × ℝ × ℕ :=
  let r := loss_acc V c logits tokens valid
  (carry.1 + (∑ i, r.1 i) / r.2.2,
   carry.2.1 + (∑ i, if r.2.1 i then (1 : ℝ) else 0) / r.2.2,
   carry.2.2 + 1)

/-- Index of the flat position holding element `i` of chunk `j` under the
einops pattern `(n c)` with `n` the number of chunks (outer factor) used by
`blockwise_cross_entropy` (bpt.py lines 204-206): position `j * c + i`. -/
def flatNC (n c : ℕ) (j : Fin n) (i : Fin c) : Fin (n * c) :=
  ⟨j.val * c + i.val, by
    have hj := j.isLt
    have hi := i.isLt
    calc j.val * c + i.val < j.val * c + c := by omega
    _ = (j.val + 1) * c := by ring
    _ ≤ n * c := Nat.mul_le_mul_right c (by omega)⟩

/-- Source function `blockwise_cross_entropy` (bpt.py lines 167-212):
default all-ones validity mask, contiguous rearrange `(n c) -> n c`,
`lax.scan` of `_loss_and_accuracy` from `(0, 0, 0)` over the blocks in
ascending order, and the final divisions `(-loss/num, accuracy/num)`.
The flat length is structurally `n * c` (`n` blocks of size `c`). -/
def blockwise_cross_entropy (V n c : ℕ) [NeZero V]
    (logits : Fin (n * c) → Fin V → ℝ) (tokens : Fin (n * c) → Fin V)
    (valid : Option (Fin (n * c) → ℝ)) : ℝ × ℝ :=
  let validD : Fin (n * c) → ℝ := valid.getD (fun _ => 1)
  let logitsC : Fin n → Fin c → Fin V → ℝ := fun j i => logits (flatNC n c j i)
  let tokensC : Fin n → Fin c → Fin V := fun j i => tokens (flatNC n c j i)
  let validC : Fin n → Fin c → ℝ := fun j i => validD (flatNC n c j i)
  let final : ℝ × ℝ × ℕ :=
    Fin.foldl n
      (fun carry j => loss_and_accuracy V c carry (logitsC j) (tokensC j) (validC j))
      (0, 0, 0)
  (-final.1 / final.2.2, final.2.1 / final.2.2)

/-- Concrete counterexample input (C1): queries 0 except position 2 where
the value is log 2; head-dim 1, one batch, one head, sequence length 4. -/
def Qc1 : T4 1 4 1 1 := fun _ s _ _ => if s.val = 2 then Real.log 2 else 0

/-- Concrete counterexample input (C1): keys 0 except position 3 where the
value is 1. -/
def Kc1 : T4 1 4 1 1 := fun _ s _ _ => if s.val = 3 then 1 else 0

/-- Concrete counterexample input (C1): values 0 except position 3 where
the value is 1. -/
def Vc1 : T4 1 4 1 1 := fun _ s _ _ => if s.val = 3 then 1 else 0

/-- Concrete zero bias of broadcast shape (1, 1, 4, 4) (a bias must be
supplied, since a None bias raises before any computation). -/
def biasZero4 : Fin 4 → Fin 4 → ℝ := fun _ _ => 0

/-- The float32 finite minimum, the value of jnp.finfo(float32).min. -/
def f32min : ℝ := -340282346638528859811704183484516925440

/-- Concrete counterexample input (C3): all-zero queries. -/
def Qz : T4 1 4 1 1 := fun _ _ _ _ => 0

/-- Concrete counterexample input (C3): all-zero keys. -/
def Kz : T4 1 4 1 1 := fun _ _ _ _ => 0

/-- Concrete counterexample input (C3): values 0 except position 2 where
the value is 1. -/
def Va : T4 1 4 1 1 := fun _ s _ _ => if s.val = 2 then 1 else 0

/-- Concrete counterexample input (C3): values 0 except position 2 where
the value is 3 — it differs from `Va` only at sequence position 2. -/
def Vb : T4 1 4 1 1 := fun _ s _ _ => if s.val = 2 then 3 else 0

/-- Modelled from the spec (§4.5 step 4): the block's valid count, floored
at the epsilon 1e-10. -/
def block_valid_count (c : ℕ) (valid : Fin c → ℝ) : ℝ :=
  max (∑ i, valid i) (1 / 10 ^ 10)

/-- Modelled from the spec (§4.5 step 5): the sum of the validity-masked
target log-probabilities of one block, divided by the floored valid
count. -/
def block_loss_contribution (V c : ℕ) [NeZero V] (logits : Fin c → Fin V → ℝ)
    (tokens : Fin c → Fin V) (valid : Fin c → ℝ) : ℝ :=
  (∑ i, if 0 < valid i then log_softmax V (logits i) (tokens i) else 0)
    / block_valid_count c valid

/-- Modelled from the spec (§4.5 step 6): the sum of the validity-masked
top-1-correct indicators of one block, divided by the floored valid
count. -/
def block_accuracy_contribution (V c : ℕ) [NeZero V]
    (logits : Fin c → Fin V → ℝ) (tokens : Fin c → Fin V)
    (valid : Fin c → ℝ) : ℝ :=
  (∑ i, if 0 < valid i ∧ argmaxIdx V (logits i) = tokens i then (1 : ℝ) else 0)
    / block_valid_count c valid

end

/-- C2: for every non-skipped key block, `summarize_chunk` updates the carry
exactly by the spec's online-softmax rule (new_max as the max of the
previous running-max and the row-wise score max, exp_weights, correction,
rescale-and-accumulate numerator and denominator, store new_max), with the
scores being the query-key contraction plus the bias tile; and after all
key blocks `_query_chunk_attention` returns numerator / denominator of the
folded carry. -/
theorem summarize_chunk_online_softmax_update
    (B H D c kcs m qlen klen : ℕ)
    (bias : Option (Fin qlen → Fin klen → ℝ)) (deterministic : Bool)
    (attn_dropout : Option (Fin B → Fin H → Fin qlen → Fin klen → Bool))
    (attn_pdrop : ℝ) (causal : Bool) (dtypeMin : ℝ)
    (query_chunk : Fin B → Fin c → Fin H → Fin D → ℝ)
    (query_chunk_idx : ℕ) :
    (∀ (carry : Carry B c H D)
        (key_chunk value_chunk : Fin B → Fin kcs → Fin H → Fin D → ℝ)
        (key_chunk_idx : ℕ),
      summarize_chunk B H D c kcs qlen klen bias deterministic attn_dropout
          attn_pdrop causal dtypeMin query_chunk query_chunk_idx carry
          key_chunk value_chunk key_chunk_idx
        = spec_accumulator_update B H D c kcs carry
            (fun b q h k =>
              (∑ d, query_chunk b q h d * key_chunk b k h d)
                + chunk_attention_bias B H c kcs qlen klen bias deterministic
                    attn_dropout attn_pdrop causal dtypeMin query_chunk_idx
                    key_chunk_idx b h q k)
            value_chunk)
    ∧ (∀ (keyC valueC : Fin m → Fin B → Fin kcs → Fin H → Fin D → ℝ),
      query_chunk_attention B H D c kcs m qlen klen bias deterministic
          attn_dropout attn_pdrop causal dtypeMin keyC valueC query_chunk
          query_chunk_idx
        = fun b q h d =>
            (Fin.foldl m
              (fun carry j =>
                skip_upper_half B H D c kcs qlen klen bias deterministic
                  attn_dropout attn_pdrop causal dtypeMin query_chunk
                  query_chunk_idx carry (keyC j) (valueC j) j.val)
              (init_carry B c H D)).numerator b q h d
            / (Fin.foldl m
              (fun carry j =>
                skip_upper_half B H D c kcs qlen klen bias deterministic
                  attn_dropout attn_pdrop causal dtypeMin query_chunk
                  query_chunk_idx carry (keyC j) (valueC j) j.val)
              (init_carry B c H D)).denominator b q h d) :=
  ⟨fun _ _ _ _ => rfl, fun _ _ => rfl⟩

/-- C4: under causal attention (`causal = true`) a (query block, key block)
pair is skipped exactly when the key block index exceeds the query block
index — the carry passing through unchanged on a skip — and in particular
the diagonal pair (`key_chunk_idx = query_chunk_idx`) is always processed
by `summarize_chunk`. -/
theorem skip_upper_half_policy
    (B H D c kcs qlen klen : ℕ)
    (bias : Option (Fin qlen → Fin klen → ℝ)) (deterministic : Bool)
    (attn_dropout : Option (Fin B → Fin H → Fin qlen → Fin klen → Bool))
    (attn_pdrop : ℝ) (causal : Bool) (dtypeMin : ℝ)
    (query_chunk : Fin B → Fin c → Fin H → Fin D → ℝ)
    (query_chunk_idx : ℕ) (carry : Carry B c H D)
    (key_chunk value_chunk : Fin B → Fin kcs → Fin H → Fin D → ℝ)
    (key_chunk_idx : ℕ) (h : causal = true) :
    (skip_upper_half B H D c kcs qlen klen bias deterministic attn_dropout
        attn_pdrop causal dtypeMin query_chunk query_chunk_idx carry
        key_chunk value_chunk key_chunk_idx
      = if query_chunk_idx < key_chunk_idx then carry
        else summarize_chunk B H D c kcs qlen klen bias deterministic
          attn_dropout attn_pdrop causal dtypeMin query_chunk query_chunk_idx
          carry key_chunk value_chunk key_chunk_idx)
    ∧ (skip_upper_half B H D c kcs qlen klen bias deterministic attn_dropout
        attn_pdrop causal dtypeMin query_chunk query_chunk_idx carry
        key_chunk value_chunk query_chunk_idx
      = summarize_chunk B H D c kcs qlen klen bias deterministic attn_dropout
          attn_pdrop causal dtypeMin query_chunk query_chunk_idx carry
          key_chunk value_chunk query_chunk_idx) := by
  subst h
  constructor
  · simp only [skip_upper_half, if_true]
    by_cases hlt : query_chunk_idx < key_chunk_idx
    · simp [hlt]
    · simp [hlt]
  · simp [skip_upper_half]

/-- Witness for C4 at a concrete instance: with `causal = true`, query block
0 and key block 1 the pair is skipped (the carry is returned unchanged) and
the diagonal pair is summarized. -/
theorem skip_upper_half_policy_witness :
    (skip_upper_half 1 1 1 1 1 1 1 none true none 0 true 0
        (fun _ _ _ _ => 0) 0 (init_carry 1 1 1 1)
        (fun _ _ _ _ => 0) (fun _ _ _ _ => 0) 1
      = if 0 < 1 then init_carry 1 1 1 1
        else summarize_chunk 1 1 1 1 1 1 1 none true none 0 true 0
          (fun _ _ _ _ => 0) 0 (init_carry 1 1 1 1)
          (fun _ _ _ _ => 0) (fun _ _ _ _ => 0) 1)
    ∧ (skip_upper_half 1 1 1 1 1 1 1 none true none 0 true 0
        (fun _ _ _ _ => 0) 0 (init_carry 1 1 1 1)
        (fun _ _ _ _ => 0) (fun _ _ _ _ => 0) 0
      = summarize_chunk 1 1 1 1 1 1 1 none true none 0 true 0
          (fun _ _ _ _ => 0) 0 (init_carry 1 1 1 1)
          (fun _ _ _ _ => 0) (fun _ _ _ _ => 0) 0) :=
  skip_upper_half_policy 1 1 1 1 1 1 1 none true none 0 true 0
    (fun _ _ _ _ => 0) 0 (init_carry 1 1 1 1)
    (fun _ _ _ _ => 0) (fun _ _ _ _ => 0) 1 rfl

/-- C5 counterexample: in a concrete tile (all sizes 1, no bias, not
deterministic, drop probability 1/2, dropout mask flagging the position,
dtype minimum -100) the code adds the full -100 at the flagged position,
not the claimed drop-probability-scaled value (1/2) * (-100). -/
theorem chunk_attention_bias_dropout_counterexample :
    chunk_attention_bias 1 1 1 1 1 1 none false (some fun _ _ _ _ => true)
        (1 / 2) false (-100) 0 0 0 0 0 0 = -100
    ∧ ((-100 : ℝ) ≠ (1 / 2) * (-100)) := by
  constructor
  · norm_num [chunk_attention_bias]
  · norm_num

/-- C5 amended: when the drop probability is positive and not in evaluation
mode, the bias tile adds, at every position flagged by the dropout mask,
the large negative value `dtypeMin` itself (multiplied by the 0/1 mask
indicator only — not scaled by the drop probability), on top of the sliced
bias and the causal term. -/
theorem chunk_attention_bias_dropout_rule
    (B H qc kc qlen klen : ℕ) (bias : Option (Fin qlen → Fin klen → ℝ))
    (mask : Fin B → Fin H → Fin qlen → Fin klen → Bool)
    (attn_pdrop : ℝ) (causal : Bool) (dtypeMin : ℝ)
    (query_chunk_idx key_chunk_idx : ℕ)
    (b : Fin B) (h : Fin H) (i : Fin qc) (j : Fin kc)
    (hp : 0 < attn_pdrop)
    (hq : query_chunk_idx * qc + i.val < qlen)
    (hk : key_chunk_idx * kc + j.val < klen) :
    chunk_attention_bias B H qc kc qlen klen bias false (some mask)
        attn_pdrop causal dtypeMin query_chunk_idx key_chunk_idx b h i j
      = (match bias with
          | none => 0
          | some bfun => bfun ⟨query_chunk_idx * qc + i.val, hq⟩
              ⟨key_chunk_idx * kc + j.val, hk⟩)
        + (if causal then
            if query_chunk_idx * qc + i.val < key_chunk_idx * kc + j.val
            then dtypeMin else 0
          else 0)
        + (if mask b h ⟨query_chunk_idx * qc + i.val, hq⟩
              ⟨key_chunk_idx * kc + j.val, hk⟩
          then dtypeMin else 0) := by
  simp only [chunk_attention_bias, dif_pos hq, dif_pos hk]
  rw [if_pos (⟨trivial, hp⟩ : True ∧ 0 < attn_pdrop)]
  by_cases hm : mask b h ⟨query_chunk_idx * qc + i.val, hq⟩
      ⟨key_chunk_idx * kc + j.val, hk⟩ = true
  · simp [hm]
  · simp [hm]

/-- Witness for C5 (amended) at a concrete instance: all sizes 1, no bias,
all-true mask, drop probability 1, causal off, dtype minimum -7 — the tile
value is 0 + 0 + (-7). -/
theorem chunk_attention_bias_dropout_rule_witness :
    (0 : ℝ) < 1
    ∧ chunk_attention_bias 1 1 1 1 1 1 none false
        (some fun _ _ _ _ => true) 1 false (-7) 0 0 0 0 0 0
      = 0 + (if False then if (0 : ℕ) < 0 then (-7 : ℝ) else 0 else 0)
        + (if true then (-7 : ℝ) else 0) := by
  refine ⟨by norm_num, ?_⟩
  have h := chunk_attention_bias_dropout_rule 1 1 1 1 1 1 none
    (fun _ _ _ _ => true) 1 false (-7) 0 0 0 0 0 0 (by norm_num)
    (by decide) (by decide)
  simpa using h

/-- C8: `blockwise_attn` with an absent (`None`) bias does not complete: the
broadcast-assertion loop at bpt.py line 74 reads `bias.shape`, which raises
`AttributeError` for every query/key/value input, instead of behaving as if
the bias were zero. -/
theorem blockwise_attn_none_bias_raises
    (B H D c n kcs m : ℕ)
    (query : T4 B (c * n) H D) (key value : T4 B (kcs * m) H D)
    (deterministic : Bool)
    (dropoutSample : Fin B → Fin H → Fin (c * n) → Fin (kcs * m) → Bool)
    (attn_pdrop : ℝ) (causal : Bool) (dtypeMin : ℝ) :
    blockwise_attn B H D c n kcs m query key value none deterministic
        dropoutSample attn_pdrop causal dtypeMin
      = Except.error "AttributeError: NoneType object has no attribute shape" :=
  rfl

/-- C9: `blockwise_ffn` applied to a deterministic stateless per-position
transform equals applying the transform to the full, un-chunked sequence at
every position (for any block size dividing the sequence length, which is
structural in the type `c * n`); in particular the result is independent of
the order in which blocks are processed, since it is a pointwise map. -/
theorem blockwise_ffn_chunk_invariance
    (B c n Dm : ℕ) (cellForward : (Fin Dm → ℝ) → (Fin Dm → ℝ))
    (inputs : T3 B (c * n) Dm) :
    blockwise_ffn B c n Dm cellForward inputs
      = fun b s => cellForward (inputs b s) := by
  funext b s d
  show cellForward
    (fun d2 => inputs b (decompIdx c n (outerOfFlat c n s) (innerOfFlat c n s)) d2) d
    = cellForward (inputs b s) d
  have hidx : decompIdx c n (outerOfFlat c n s) (innerOfFlat c n s) = s := by
    apply Fin.ext
    show (s.val / n) * n + s.val % n = s.val
    rw [Nat.mul_comm]
    exact Nat.div_add_mod s.val n
  rw [hidx]

/-- C6 counterexample: at batch 1, query block size 2, 1 head, head-dim 3,
the denominator allocated by the source initial carry (bpt.py line 127) has
shape (1, 2, 1, 3) — the full head-dim — not the claimed (1, 2, 1, 1). -/
theorem init_carry_shape_counterexample :
    ¬ (init_carry_shapes 1 2 1 3).2.1 = [1, 2, 1, 1] := by decide

/-- C6 amended: at the start of every query block's reduction the carry is
initialized to numerator = 0 of shape (batch, query_block_size, heads,
head-dim), denominator = 0 of the same shape (batch, query_block_size,
heads, head-dim) — not (..., 1) — and running-max = -infinity of shape
(batch, query_block_size, heads, 1); the fold of every query block starts
from this fresh initial carry, which is never shared across query blocks. -/
theorem init_carry_model (B c H D : ℕ) :
    (∀ batch qcs heads dph, init_carry_shapes batch qcs heads dph
      = ([batch, qcs, heads, dph], [batch, qcs, heads, dph],
         [batch, qcs, heads, 1]))
    ∧ (init_carry B c H D).numerator = (fun _ _ _ _ => 0)
    ∧ (init_carry B c H D).denominator = (fun _ _ _ _ => 0)
    ∧ (init_carry B c H D).max_so_far = (fun _ _ _ => (⊥ : EReal))
    ∧ (∀ (kcs m qlen klen : ℕ) (bias : Option (Fin qlen → Fin klen → ℝ))
        (deterministic : Bool)
        (attn_dropout : Option (Fin B → Fin H → Fin qlen → Fin klen → Bool))
        (attn_pdrop : ℝ) (causal : Bool) (dtypeMin : ℝ)
        (keyC valueC : Fin m → Fin B → Fin kcs → Fin H → Fin D → ℝ)
        (query_chunk : Fin B → Fin c → Fin H → Fin D → ℝ)
        (query_chunk_idx : ℕ),
      query_chunk_attention B H D c kcs m qlen klen bias deterministic
          attn_dropout attn_pdrop causal dtypeMin keyC valueC query_chunk
          query_chunk_idx
        = (fun b q h d =>
            (Fin.foldl m
              (fun carry j =>
                skip_upper_half B H D c kcs qlen klen bias deterministic
                  attn_dropout attn_pdrop causal dtypeMin query_chunk
                  query_chunk_idx carry (keyC j) (valueC j) j.val)
              (init_carry B c H D)).numerator b q h d
            / (Fin.foldl m
              (fun carry j =>
                skip_upper_half B H D c kcs qlen klen bias deterministic
                  attn_dropout attn_pdrop causal dtypeMin query_chunk
                  query_chunk_idx carry (keyC j) (valueC j) j.val)
              (init_carry B c H D)).denominator b q h d)) :=
  ⟨fun _ _ _ _ => rfl, rfl, rfl, rfl,
    fun _ _ _ _ _ _ _ _ _ _ _ _ _ _ => rfl⟩

/-- Helper: `expE` at `-inf` is 0. -/
lemma expE_bot : expE ⊥ = 0 := if_pos rfl

/-- Helper: `expE` on a finite value is the real exponential. -/
lemma expE_coe (x : ℝ) : expE ((x : ℝ) : EReal) = Real.exp x := by
  rw [expE, if_neg (EReal.coe_ne_bot x), EReal.toReal_coe]

/-- Helper: `expE` of a difference of finite values. -/
lemma expE_coe_sub (a b : ℝ) :
    expE ((a : EReal) - (b : EReal)) = Real.exp (a - b) := by
  rw [← EReal.coe_sub, expE_coe]

/-- Helper: `expE` of `-inf` minus anything is 0. -/
lemma expE_bot_sub (x : EReal) : expE (⊥ - x) = 0 := by
  rw [EReal.bot_sub]; exact expE_bot

/-- Helper: `expE` at 0 is 1. -/
lemma expE_zero : expE (0 : EReal) = 1 := by
  rw [← EReal.coe_zero, expE_coe, Real.exp_zero]

/-- Helper: `expE` of a negated finite value. -/
lemma expE_neg_coe (a : ℝ) : expE (-(a : EReal)) = Real.exp (-a) := by
  rw [← EReal.coe_neg, expE_coe]

/-- Helper: the join of two finite extended reals is the coerced max. -/
lemma ereal_coe_sup (a b : ℝ) :
    (a : EReal) ⊔ (b : EReal) = ((max a b : ℝ) : EReal) := by
  rcases le_total a b with h | h
  · rw [max_eq_right h]
    exact sup_eq_right.mpr (EReal.coe_le_coe_iff.mpr h)
  · rw [max_eq_left h]
    exact sup_eq_left.mpr (EReal.coe_le_coe_iff.mpr h)

/-- Helper: the max of two finite extended reals is the coerced max. -/
lemma ereal_max_coe (a b : ℝ) :
    max (a : EReal) (b : EReal) = ((max a b : ℝ) : EReal) :=
  ereal_coe_sup a b

/-- Helper: the max of `-inf` with anything is that value. -/
lemma ereal_max_bot (x : EReal) : max (⊥ : EReal) x = x := max_eq_right bot_le

/-- Helper: a supremum over `Fin 2`. -/
lemma sup_univ_fin_two {α : Type _} [SemilatticeSup α] [OrderBot α]
    (f : Fin 2 → α) : Finset.univ.sup f = f 0 ⊔ f 1 := by
  rw [show (Finset.univ : Finset (Fin 2)) = {0, 1} by decide]
  simp [Finset.sup_insert]

/-- Helper: a `Fin.foldl` over two elements. -/
lemma fin_foldl_two {α : Type _} (f : α → Fin 2 → α) (x : α) :
    Fin.foldl 2 f x = f (f x 0) 1 := by
  rw [Fin.foldl_succ, Fin.foldl_succ, Fin.foldl_zero]
  rfl

/-- Helper: a `Fin.foldl` whose step adds `f j` / `g j` to the first two
components and 1 to the counter is the componentwise sum. -/
lemma foldl_triple_add (n : ℕ) (f g : Fin n → ℝ) (a b : ℝ) (k : ℕ) :
    Fin.foldl n (fun s j => (s.1 + f j, s.2.1 + g j, s.2.2 + 1)) (a, b, k)
      = (a + ∑ j, f j, b + ∑ j, g j, k + n) := by
  induction n generalizing a b k with
  | zero => simp
  | succ n ih =>
    rw [Fin.foldl_succ]
    have h2 := ih (fun j => f j.succ) (fun j => g j.succ) (a + f 0) (b + g 0)
      (k + 1)
    refine h2.trans ?_
    simp only [Fin.sum_univ_succ, Prod.mk.injEq]
    exact ⟨by ring, by ring, by omega⟩

/-- Helper: the sum of the boolean correctness indicators of `loss_acc`
equals the sum of the propositional valid-and-top-1-correct indicators. -/
lemma correct_indicator_eq (V c : ℕ) [NeZero V] (logits : Fin c → Fin V → ℝ)
    (tokens : Fin c → Fin V) (valid : Fin c → ℝ) :
    (∑ i, if (loss_acc V c logits tokens valid).2.1 i then (1 : ℝ) else 0)
      = ∑ i, if 0 < valid i ∧ argmaxIdx V (logits i) = tokens i
          then (1 : ℝ) else 0 := by
  apply Finset.sum_congr rfl
  intro i _
  unfold loss_acc
  by_cases hv : 0 < valid i
  · by_cases hc : argmaxIdx V (logits i) = tokens i <;> simp [hv, hc]
  · simp [hv]

/-- Helper: `blockwise_cross_entropy` as the closed-form average of the
per-block contributions. -/
lemma blockwise_cross_entropy_eq (V n c : ℕ) [NeZero V]
    (logits : Fin (n * c) → Fin V → ℝ) (tokens : Fin (n * c) → Fin V)
    (valid : Option (Fin (n * c) → ℝ)) :
    blockwise_cross_entropy V n c logits tokens valid
      = (-(∑ j : Fin n, block_loss_contribution V c
            (fun i => logits (flatNC n c j i)) (fun i => tokens (flatNC n c j i))
            (fun i => (valid.getD fun _ => 1) (flatNC n c j i))) / (n : ℝ),
         (∑ j : Fin n, block_accuracy_contribution V c
            (fun i => logits (flatNC n c j i)) (fun i => tokens (flatNC n c j i))
            (fun i => (valid.getD fun _ => 1) (flatNC n c j i))) / (n : ℝ)) := by
  have hstep :
      (fun (carry : ℝ × ℝ × ℕ) (j : Fin n) =>
        loss_and_accuracy V c carry (fun i => logits (flatNC n c j i))
          (fun i => tokens (flatNC n c j i))
          (fun i => (valid.getD fun _ => 1) (flatNC n c j i)))
      = (fun (s : ℝ × ℝ × ℕ) (j : Fin n) =>
          (s.1 + block_loss_contribution V c (fun i => logits (flatNC n c j i))
            (fun i => tokens (flatNC n c j i))
            (fun i => (valid.getD fun _ => 1) (flatNC n c j i)),
           s.2.1 + (∑ i, if (loss_acc V c (fun i => logits (flatNC n c j i))
                (fun i => tokens (flatNC n c j i))
                (fun i => (valid.getD fun _ => 1) (flatNC n c j i))).2.1 i
              then (1 : ℝ) else 0)
              / block_valid_count c
                  (fun i => (valid.getD fun _ => 1) (flatNC n c j i)),
           s.2.2 + 1)) := rfl
  simp only [blockwise_cross_entropy]
  rw [hstep, foldl_triple_add]
  simp only [Prod.mk.injEq, zero_add, Nat.cast_add, Nat.cast_zero]
  refine ⟨trivial, ?_⟩
  congr 1
  apply Finset.sum_congr rfl
  intro j _
  unfold block_accuracy_contribution
  rw [correct_indicator_eq]

/-- C7: for every logits/targets/validity input whose flat length is a
multiple of the block size (structurally `n * c`), `blockwise_cross_entropy`
equals the spec's aggregation: per block the validity-masked target
log-probability sum and top-1-correct count, each divided by the block's
valid count floored at 1e-10, folded as running sums with a block counter,
returning final loss = -loss-sum / block-count and final accuracy =
accuracy-sum / block-count. -/
theorem blockwise_cross_entropy_aggregation (V n c : ℕ) [NeZero V]
    (logits : Fin (n * c) → Fin V → ℝ) (tokens : Fin (n * c) → Fin V)
    (valid : Option (Fin (n * c) → ℝ)) :
    blockwise_cross_entropy V n c logits tokens valid
      = (-(∑ j : Fin n, block_loss_contribution V c
            (fun i => logits (flatNC n c j i)) (fun i => tokens (flatNC n c j i))
            (fun i => (valid.getD fun _ => 1) (flatNC n c j i))) / (n : ℝ),
         (∑ j : Fin n, block_accuracy_contribution V c
            (fun i => logits (flatNC n c j i)) (fun i => tokens (flatNC n c j i))
            (fun i => (valid.getD fun _ => 1) (flatNC n c j i))) / (n : ℝ)) :=
  blockwise_cross_entropy_eq V n c logits tokens valid

/-- Witness for C7 at a concrete instance: vocabulary 1, one block of size
one, all-zero logits, absent validity mask. -/
theorem blockwise_cross_entropy_aggregation_witness :
    blockwise_cross_entropy 1 1 1 (fun _ _ => 0) (fun _ => 0) none
      = (-(∑ _j : Fin 1, block_loss_contribution 1 1 (fun _ _ => 0)
            (fun _ => 0) (fun _ => 1)) / 1,
         (∑ _j : Fin 1, block_accuracy_contribution 1 1 (fun _ _ => 0)
            (fun _ => 0) (fun _ => 1)) / 1) := by
  have h := blockwise_cross_entropy_aggregation 1 1 1 (fun _ _ => 0)
    (fun _ => 0) none
  simpa using h

/-- C10: with at least one block and a 0/1-valued effective validity mask
(which includes the all-ones default when the mask is absent), the accuracy
returned by `blockwise_cross_entropy` lies in [0, 1]. -/
theorem blockwise_cross_entropy_accuracy_bounds (V n c : ℕ) [NeZero V]
    (logits : Fin (n * c) → Fin V → ℝ) (tokens : Fin (n * c) → Fin V)
    (valid : Option (Fin (n * c) → ℝ)) (hn : 0 < n)
    (hv : ∀ s, (valid.getD fun _ => 1) s = 0 ∨ (valid.getD fun _ => 1) s = 1) :
    0 ≤ (blockwise_cross_entropy V n c logits tokens valid).2
    ∧ (blockwise_cross_entropy V n c logits tokens valid).2 ≤ 1 := by
  rw [blockwise_cross_entropy_eq]
  dsimp only
  have hbvc : ∀ (vb : Fin c → ℝ), (0 : ℝ) < block_valid_count c vb := by
    intro vb
    exact lt_of_lt_of_le (by norm_num) (le_max_right _ _)
  have hbac01 : ∀ j : Fin n,
      0 ≤ block_accuracy_contribution V c (fun i => logits (flatNC n c j i))
            (fun i => tokens (flatNC n c j i))
            (fun i => (valid.getD fun _ => 1) (flatNC n c j i))
      ∧ block_accuracy_contribution V c (fun i => logits (flatNC n c j i))
            (fun i => tokens (flatNC n c j i))
            (fun i => (valid.getD fun _ => 1) (flatNC n c j i)) ≤ 1 := by
    intro j
    unfold block_accuracy_contribution
    constructor
    · apply div_nonneg _ (hbvc _).le
      apply Finset.sum_nonneg
      intro i _
      split <;> norm_num
    · rw [div_le_one (hbvc _)]
      refine le_trans (Finset.sum_le_sum ?_) (le_max_left _ _)
      intro i _
      dsimp only
      rcases hv (flatNC n c j i) with h0 | h1
      · rw [h0]
        split
        · next hcond => exact absurd hcond.1 (by norm_num)
        · exact le_refl 0
      · rw [h1]
        split
        · exact le_refl 1
        · norm_num
  constructor
  · exact div_nonneg (Finset.sum_nonneg fun j _ => (hbac01 j).1) (Nat.cast_nonneg n)
  · rw [div_le_one (by exact_mod_cast hn)]
    calc (∑ j : Fin n, block_accuracy_contribution V c
            (fun i => logits (flatNC n c j i)) (fun i => tokens (flatNC n c j i))
            (fun i => (valid.getD fun _ => 1) (flatNC n c j i)))
        ≤ ∑ _j : Fin n, (1 : ℝ) := Finset.sum_le_sum fun j _ => (hbac01 j).2
      _ = (n : ℝ) := by simp

/-- Witness for C10 at a concrete instance: one block of size one, absent
validity mask — the hypotheses hold and the accuracy is within [0, 1]. -/
theorem blockwise_cross_entropy_accuracy_bounds_witness :
    0 < 1
    ∧ (∀ s : Fin (1 * 1),
        ((none : Option (Fin (1 * 1) → ℝ)).getD fun _ => 1) s = 0
        ∨ ((none : Option (Fin (1 * 1) → ℝ)).getD fun _ => 1) s = 1)
    ∧ 0 ≤ (blockwise_cross_entropy 1 1 1 (fun _ _ => 0) (fun _ => 0) none).2
    ∧ (blockwise_cross_entropy 1 1 1 (fun _ _ => 0) (fun _ => 0) none).2 ≤ 1 := by
  have h := blockwise_cross_entropy_accuracy_bounds 1 1 1 (fun _ _ => 0)
    (fun _ => 0) none Nat.one_pos (fun _ => Or.inr rfl)
  exact ⟨Nat.one_pos, fun _ => Or.inr rfl, h.1, h.2⟩

/-- C1 is false on the code: with query sequence (0, 0, log 2, 0), keys
(0, 0, 0, 1), values (0, 0, 0, 1), zero bias, causal off, drop probability
0 and chunk sizes 2 (dividing the sequence length 4), `blockwise_attn`
returns 2/5 at output position 1 while the direct unchunked softmax
reference returns 1/4 there: the rearrange at bpt.py line 69 splits the
sequence with the chunk index as the inner einops factor (strided chunks),
while the offsets and the reassembly at line 140 assume contiguous chunks,
so non-degenerate chunk sizes permute/miscompute the output. -/
theorem blockwise_attn_chunk_size_mismatch :
    (blockwise_attn 1 1 1 2 2 2 2 Qc1 Kc1 Vc1 (some biasZero4) true
        (fun _ _ _ _ => false) 0 false f32min).map (fun o => o 0 1 0 0)
      = Except.ok (2 / 5)
    ∧ reference_attn 1 1 1 4 4 Qc1 Kc1 Vc1 biasZero4 false 0 1 0 0 = 1 / 4
    ∧ ((2 : ℝ) / 5 ≠ 1 / 4) := by
  refine ⟨?_, ?_, by norm_num⟩
  · simp only [blockwise_attn, Except.map]
    rw [show chunkOfFlat 2 2 (1 : Fin (2 * 2)) = 0 from rfl,
      show posOfFlat 2 2 (1 : Fin (2 * 2)) = 1 from rfl]
    norm_num [query_chunk_attention, fin_foldl_two]
    simp [skip_upper_half, summarize_chunk, init_carry, chunk_attention_bias,
      decompIdx, Qc1, Kc1, Vc1, biasZero4, Fin.sum_univ_two, Fin.sum_univ_one,
      sup_univ_fin_two, ereal_coe_sup, ereal_max_coe, ereal_max_bot,
      expE_bot_sub, expE_coe_sub]
    rw [show (0 : EReal) ⊔ ((Real.log 2 : ℝ) : EReal) = ((Real.log 2 : ℝ) : EReal) by
      rw [sup_eq_right]
      exact_mod_cast Real.log_nonneg one_le_two]
    rw [expE_coe_sub, expE_zero, expE_neg_coe]
    rw [sub_self, Real.exp_zero, Real.exp_neg, Real.exp_log two_pos]
    norm_num
  · norm_num [reference_attn, Qc1, Kc1, Vc1, biasZero4, Fin.sum_univ_four,
      Fin.sum_univ_one, Real.exp_zero, show ((3 : Fin 4)).val = 3 from rfl]

/-- C3 is false on the code: with causal = true, all-zero queries and keys,
zero bias, drop probability 0, chunk sizes 2 and sequence length 4, the
two value inputs `Va` and `Vb` agree at every sequence position except
position 2, yet the attention outputs at position 1 (which precedes 2)
differ: 1/2 versus 3/2.  The strided `(c n)` rearrange at bpt.py line 69
puts original position 2 into query/key block 0 while the causal masking
and skipping operate on block-local contiguous offsets, so later positions
leak into earlier outputs. -/
theorem blockwise_attn_causal_locality_violation :
    (blockwise_attn 1 1 1 2 2 2 2 Qz Kz Va (some biasZero4) true
        (fun _ _ _ _ => false) 0 true f32min).map (fun o => o 0 1 0 0)
      = Except.ok (1 / 2)
    ∧ (blockwise_attn 1 1 1 2 2 2 2 Qz Kz Vb (some biasZero4) true
        (fun _ _ _ _ => false) 0 true f32min).map (fun o => o 0 1 0 0)
      = Except.ok (3 / 2)
    ∧ Va 0 0 0 0 = Vb 0 0 0 0 ∧ Va 0 1 0 0 = Vb 0 1 0 0
    ∧ Va 0 3 0 0 = Vb 0 3 0 0
    ∧ ((1 : ℝ) / 2 ≠ 3 / 2) := by
  refine ⟨?_, ?_, by norm_num [Va, Vb], by norm_num [Va, Vb],
    by norm_num [Va, Vb, show ((3 : Fin 4)).val = 3 from rfl], by norm_num⟩
  · simp only [blockwise_attn, Except.map]
    rw [show chunkOfFlat 2 2 (1 : Fin (2 * 2)) = 0 from rfl,
      show posOfFlat 2 2 (1 : Fin (2 * 2)) = 1 from rfl]
    norm_num [query_chunk_attention, fin_foldl_two]
    simp [skip_upper_half, summarize_chunk, init_carry, chunk_attention_bias,
      decompIdx, Qz, Kz, Va, biasZero4, Fin.sum_univ_two, Fin.sum_univ_one,
      sup_univ_fin_two, ereal_coe_sup, ereal_max_coe, ereal_max_bot,
      expE_bot_sub, expE_coe_sub, expE_zero]
    norm_num
  · simp only [blockwise_attn, Except.map]
    rw [show chunkOfFlat 2 2 (1 : Fin (2 * 2)) = 0 from rfl,
      show posOfFlat 2 2 (1 : Fin (2 * 2)) = 1 from rfl]
    norm_num [query_chunk_attention, fin_foldl_two]
    simp [skip_upper_half, summarize_chunk, init_carry, chunk_attention_bias,
      decompIdx, Qz, Kz, Vb, biasZero4, Fin.sum_univ_two, Fin.sum_univ_one,
      sup_univ_fin_two, ereal_coe_sup, ereal_max_coe, ereal_max_bot,
      expE_bot_sub, expE_coe_sub, expE_zero]
    norm_num

end BPT
